import Mathlib

namespace Bitmessage

/-!
Shallow embedding of the bitmessage-rs node core, checked against the
natural-language specification.

The Rust sources embedded here are:
  core/src/pow.rs                      (check_pow, get_pow_target)
  core/src/network/messages.rs         (Object, ObjectKind, NetworkMessage)
  core/src/network/node/worker.rs      (SendMessage, NonceCalculated,
                                        handle_pubkey_notification,
                                        create_object_from_msg)
  core/src/network/node/pow_worker.rs  (proof-of-work job queue)
  core/src/repositories/sqlite/inventory.rs (get, get_missing_objects, cleanup)
  src/repositories/memory/inventory.rs (get_missing_objects, cleanup)
  src/network/node/handler.rs          (handle_message, handle_inv,
                                        handle_msg_object, the target used
                                        when verifying received objects)
  src/network/address.rs               (Address derivations)

Cryptographic primitives (SHA-256, SHA-512, secp256k1 signing, ECIES) and
the serde_cbor encoding of dynamic strings are consumed as libraries by the
program; they enter the embedding as explicit function parameters.  The
serde_cbor encoding of ObjectKind, whose byte length feeds the PoW target
formula, is embedded concretely.
-/

abbrev Bytes := List Nat

/-! ## serde_cbor encoding of ObjectKind

serde_cbor serialises the internally tagged enum ObjectKind
(attribute serde(tag = "kind")) as a definite-length CBOR map whose first
entry is the text pair "kind" / variant name, followed by the variant's
fields in declaration order.  A Rust Vec of u8 serialises as a CBOR array
of unsigned integers. -/

/-- CBOR header bytes for a definite-length array of n elements (major type 4). -/
def cborArrayHeader (n : Nat) : Bytes :=
  if n ≤ 23 then [128 + n]
  else if n ≤ 255 then [152, n]
  else if n ≤ 65535 then [153, n / 256, n % 256]
  else if n ≤ 4294967295 then
    [154, n / 16777216 % 256, n / 65536 % 256, n / 256 % 256, n % 256]
  else
    [155, n / 2 ^ 56 % 256, n / 2 ^ 48 % 256, n / 2 ^ 40 % 256, n / 2 ^ 32 % 256,
      n / 2 ^ 24 % 256, n / 2 ^ 16 % 256, n / 256 % 256, n % 256]

/-- CBOR encoding of one u8 element of a Vec (unsigned integer, major type 0). -/
def cborByteElem (v : Nat) : Bytes :=
  if v ≤ 23 then [v] else [24, v]

/-- CBOR encoding of a Rust Vec of u8 (array of unsigned integers). -/
def cborByteSeq (l : Bytes) : Bytes :=
  cborArrayHeader l.length ++ (l.map cborByteElem).flatten

/-- CBOR text string "kind" with its header byte. -/
def cborTextKind : Bytes := [100, 107, 105, 110, 100]

/-- CBOR text string "Msg" with its header byte. -/
def cborTextMsg : Bytes := [99, 77, 115, 103]

/-- CBOR text string "encrypted" with its header byte. -/
def cborTextEncrypted : Bytes := [105, 101, 110, 99, 114, 121, 112, 116, 101, 100]

/-- CBOR text string "Broadcast" with its header byte. -/
def cborTextBroadcast : Bytes := [105, 66, 114, 111, 97, 100, 99, 97, 115, 116]

/-- CBOR text string "tag" with its header byte. -/
def cborTextTag : Bytes := [99, 116, 97, 103]

/-- CBOR text string "Getpubkey" with its header byte. -/
def cborTextGetpubkey : Bytes := [105, 71, 101, 116, 112, 117, 98, 107, 101, 121]

/-- CBOR text string "Pubkey" with its header byte. -/
def cborTextPubkey : Bytes := [102, 80, 117, 98, 107, 101, 121]

/-- ObjectKind from network/messages.rs. -/
inductive ObjectKind where
  | msg (encrypted : Bytes)
  | broadcast (tag : Bytes) (encrypted : Bytes)
  | getpubkey (tag : Bytes)
  | pubkey (tag : Bytes) (encrypted : Bytes)
deriving DecidableEq

/-- serde_cbor::to_vec of an ObjectKind value (162 and 163 are the headers of
definite-length maps with 2 and 3 entries). -/
def serdeCborKind : ObjectKind → Bytes
  | .msg e =>
      [162] ++ cborTextKind ++ cborTextMsg ++ cborTextEncrypted ++ cborByteSeq e
  | .broadcast t e =>
      [163] ++ cborTextKind ++ cborTextBroadcast ++ cborTextTag ++ cborByteSeq t
        ++ cborTextEncrypted ++ cborByteSeq e
  | .getpubkey t =>
      [162] ++ cborTextKind ++ cborTextGetpubkey ++ cborTextTag ++ cborByteSeq t
  | .pubkey t e =>
      [163] ++ cborTextKind ++ cborTextPubkey ++ cborTextTag ++ cborByteSeq t
        ++ cborTextEncrypted ++ cborByteSeq e

/-- Object from core/src/network/messages.rs. -/
structure Object where
  hash : Bytes
  nonce : Bytes
  expires : Int
  signature : Bytes
  kind : ObjectKind
  nonce_trials_per_byte : Int
  extra_bytes : Int
deriving DecidableEq

/-! ## PoW target and verification (core/src/pow.rs) -/

def NETWORK_MIN_NONCE_TRIALS_PER_BYTE : Int := 1000

def NETWORK_MIN_EXTRA_BYTES : Int := 1000

/-- Rust cast of an i64 expression to u64 (wrapping, two's complement). -/
def u64Wrap (x : Int) : Nat := (x % (2 ^ 64 : Int)).toNat

/-- Rust cast of an i32 expression to u32 (wrapping, two's complement). -/
def u32Wrap (x : Int) : Nat := (x % (2 ^ 32 : Int)).toNat

/-- get_pow_target from core/src/pow.rs.  Utc::now().timestamp() is passed in
as the explicit argument now.  The subtraction expires - now is an i64 cast
to u64 (a wrapping cast, not a clamp), nonce_trials_per_byte is cast to u32,
extra_bytes to usize; from there all arithmetic is BigUint. -/
def get_pow_target (object : Object) (nonce_trials_per_byte extra_bytes : Int)
    (now : Int) : Nat :=
  let ntpb := if nonce_trials_per_byte = 0 then NETWORK_MIN_NONCE_TRIALS_PER_BYTE
              else nonce_trials_per_byte
  let eb := if extra_bytes = 0 then NETWORK_MIN_EXTRA_BYTES else extra_bytes
  let ttl : Nat := u64Wrap (object.expires - now)
  let payload_bytes : Nat :=
    ((serdeCborKind object.kind).length + u64Wrap eb + 8) % 2 ^ 64
  let denominator : Nat := u32Wrap ntpb * (payload_bytes + ttl * payload_bytes / 2 ^ 16)
  2 ^ 64 / denominator

/-- Modelled from the spec (section 4.2, Target computation): ttl is
max(0, expires - now), every quantity is an unbounded integer; stated for
the comparison of the code's computation against the spec's formula. -/
def specPowTarget (object : Object) (nonce_trials_per_byte extra_bytes : Int)
    (now : Int) : Nat :=
  let ntpb := if nonce_trials_per_byte = 0 then (1000 : Int) else nonce_trials_per_byte
  let eb := if extra_bytes = 0 then (1000 : Int) else extra_bytes
  let ttl : Nat := (object.expires - now).toNat
  let payload_bytes : Nat := (serdeCborKind object.kind).length + eb.toNat + 8
  let denominator : Nat := ntpb.toNat * (payload_bytes + ttl * payload_bytes / 2 ^ 16)
  2 ^ 64 / denominator

/-- PoWError from core/src/pow.rs. -/
inductive PoWError where
  | insufficientProofOfWork
deriving DecidableEq

/-- Minimal big-endian base-256 digits of a natural number. -/
def beDigits : Nat → Bytes
  | 0 => []
  | n + 1 => beDigits ((n + 1) / 256) ++ [(n + 1) % 256]
decreasing_by exact Nat.div_lt_self (Nat.succ_pos n) (by omega)

/-- num_bigint BigUint::to_bytes_be: big-endian bytes, a single zero byte
for the number zero. -/
def natToBytesBE (n : Nat) : Bytes :=
  if n = 0 then [0] else beDigits n

/-- num_bigint BigUint::from_bytes_be. -/
def beToNat (l : Bytes) : Nat :=
  l.foldl (fun acc b => acc * 256 + b) 0

/-- check_pow from core/src/pow.rs, with the SHA-512 library primitive as an
explicit parameter.  The incremental hasher updates amount to hashing the
concatenation of the big-endian nonce bytes with the initial hash. -/
def check_pow (sha512 : Bytes → Bytes) (target : Nat) (nonce : Nat)
    (initial_hash : Bytes) : Except PoWError Unit :=
  let result_hash := sha512 (sha512 (natToBytesBE nonce ++ initial_hash))
  let trial_value := beToNat (result_hash.take 8)
  if trial_value > target then .error .insufficientProofOfWork else .ok ()

/-- The trial value as the spec words it: the big-endian integer formed by the
first 8 bytes of SHA-512(SHA-512(big-endian nonce bytes concatenated with the
initial hash)). -/
def trialValue (sha512 : Bytes → Bytes) (nonce : Nat) (initial_hash : Bytes) : Nat :=
  beToNat ((sha512 (sha512 (natToBytesBE nonce ++ initial_hash))).take 8)

/-- The PoW target the handler uses when verifying a received object
(src/src/network/node/handler.rs, handle_objects): get_pow_target is called
with the node's local minimum constants, not with fields of the object.
core/src/network/messages.rs (Object::do_proof_of_work) passes the same
constants. -/
def handleObjectsPowTarget (obj : Object) (now : Int) : Nat :=
  get_pow_target obj NETWORK_MIN_NONCE_TRIALS_PER_BYTE NETWORK_MIN_EXTRA_BYTES now

/-- Concrete expired object for the C4 counterexample: expires one second in
the past. -/
def c4Object : Object :=
  { hash := [], nonce := [], expires := 0, signature := [],
    kind := .getpubkey [], nonce_trials_per_byte := 1000, extra_bytes := 1000 }

/-- Concrete unexpired object for the C4 witness. -/
def c4WitnessObject : Object :=
  { hash := [], nonce := [], expires := 100, signature := [],
    kind := .msg [1, 2, 200], nonce_trials_per_byte := 1000, extra_bytes := 1000 }

/-- Concrete object for the C2 counterexample: it declares
nonce_trials_per_byte = 2000, yet the handler verifies its PoW against the
target computed from the local minimum constants (1000). -/
def c2Object : Object :=
  { hash := [], nonce := [], expires := 65536, signature := [],
    kind := .getpubkey [], nonce_trials_per_byte := 2000, extra_bytes := 1000 }

/-! ## Inventory repositories

The sqlite store (core/src/repositories/sqlite/inventory.rs) is modelled as a
list of rows with the table's columns; queries keep the SQL predicates.  The
in-memory store (src/src/repositories/memory/inventory.rs) keys objects by raw
hash bytes and wraps each with an absolute expiry instant. -/

/-- A row of the inventory table (core/src/repositories/sqlite/models.rs):
hash (base58 string), object_type, nonce (null means awaiting PoW), serialised
kind, expires, signature. -/
structure InvRow where
  hash : String
  object_type : Int
  nonce : Option Bytes
  data : Bytes
  expires : Int
  signature : Bytes
deriving DecidableEq

/-- SqliteInventoryRepository::get: SELECT hash FROM inventory WHERE
expires > now AND nonce IS NOT NULL. -/
def inventoryGet (rows : List InvRow) (now : Int) : List String :=
  (rows.filter (fun r => decide (now < r.expires) && r.nonce.isSome)).map (fun r => r.hash)

/-- SqliteInventoryRepository::get_missing_objects: retain exactly the incoming
hashes for which SELECT hash FROM inventory WHERE hash = ? finds no row.
The lookup has no nonce or expiry filter, so stored is the full set of stored
hashes. -/
def sqliteGetMissingObjects (stored : List String) (hashes : List String) : List String :=
  hashes.filter (fun h => !(stored.contains h))

/-- MemoryInventoryRepository::get_missing_objects: the retain keeps a hash
when the map lookup succeeds, so it keeps exactly the hashes that are already
stored. -/
def memoryGetMissingObjects (storedKeys : List Bytes) (hashes : List Bytes) : List Bytes :=
  hashes.filter (fun h => storedKeys.contains h)

/-- SqliteInventoryRepository::cleanup: DELETE FROM inventory WHERE
expires <= now, returning the affected row count. -/
def sqliteCleanup (rows : List InvRow) (now : Int) : List InvRow × Nat :=
  (rows.filter (fun r => !(decide (r.expires ≤ now))),
    (rows.filter (fun r => decide (r.expires ≤ now))).length)

/-- MemoryInventoryRepository::cleanup: retain drops the entries whose expiry
instant is strictly before now, and the count is the length difference. -/
def memoryCleanup (objects : List (Bytes × Int)) (now : Int) :
    List (Bytes × Int) × Nat :=
  let remaining := objects.filter (fun v => !(decide (v.2 < now)))
  (remaining, objects.length - remaining.length)

/-- Concrete rows for the C7 witness. -/
def c7Row1 : InvRow :=
  { hash := "a", object_type := 0, nonce := none, data := [], expires := 10, signature := [] }

/-- Concrete expired row for the C7 witness. -/
def c7Row2 : InvRow :=
  { hash := "b", object_type := 0, nonce := some [1], data := [], expires := 4, signature := [] }

/-! ## The PoW job queue (core/src/network/node/pow_worker.rs)

The worker's mutable state is the is_pow_running flag and the waiting_objects
queue; the searches field is the number of nonce searches actually in flight
(incremented whenever do_proof_of_work is spawned, decremented when the search
posts its NonceCalculated command).  A NonceCalculated command can only arrive
from an in-flight search, which the trace-validity predicate captures. -/

structure PowQueueState where
  is_pow_running : Bool
  waiting_objects : List Object
  searches : Nat
deriving DecidableEq

/-- ProofOfWorkWorkerCommand. -/
inductive PowCmd where
  | enqueuePoW (object : Object)
  | nonceCalculated (object : Object)
deriving DecidableEq

/-- Side effects the queue loop performs, in order. -/
inductive PowEffect where
  | storeObject (object : Object)
  | startSearch (object : Object)
  | updateNonce (hash : Bytes) (nonce : Bytes)
  | notifyNodeWorker (object : Object)
deriving DecidableEq

/-- ProofOfWorkWorker::enqueue_pow: append to the queue while a search runs,
otherwise spawn the search at once and raise the flag. -/
def enqueuePowStep (s : PowQueueState) (object : Object) :
    PowQueueState × List PowEffect :=
  if s.is_pow_running then
    ({ s with waiting_objects := s.waiting_objects ++ [object] }, [])
  else
    ({ s with is_pow_running := true, searches := s.searches + 1 },
      [.startSearch object])

/-- One iteration of ProofOfWorkWorker::run's select loop.  EnqueuePoW stores
the object then calls enqueue_pow; NonceCalculated persists the nonce on the
inventory row, notifies the node worker, then dequeues and starts the next
waiting object if any, otherwise lowers the flag. -/
def powStep (s : PowQueueState) : PowCmd → PowQueueState × List PowEffect
  | .enqueuePoW object =>
      let r := enqueuePowStep s object
      (r.1, .storeObject object :: r.2)
  | .nonceCalculated object =>
      match s.waiting_objects with
      | [] =>
          ({ s with is_pow_running := false, searches := s.searches - 1 },
            [.updateNonce object.hash object.nonce, .notifyNodeWorker object])
      | o :: rest =>
          ({ s with waiting_objects := rest, searches := s.searches - 1 + 1 },
            [.updateNonce object.hash object.nonce, .notifyNodeWorker object,
              .startSearch o])

/-- A NonceCalculated command is only ever produced by an in-flight search. -/
def powCmdValid (s : PowQueueState) : PowCmd → Bool
  | .enqueuePoW _ => true
  | .nonceCalculated _ => decide (0 < s.searches)

def powRun (s : PowQueueState) : List PowCmd → PowQueueState
  | [] => s
  | c :: cs => powRun (powStep s c).1 cs

def powTraceValid (s : PowQueueState) : List PowCmd → Bool
  | [] => true
  | c :: cs => powCmdValid s c && powTraceValid (powStep s c).1 cs

/-- The queue's initial state. -/
def powInit : PowQueueState :=
  { is_pow_running := false, waiting_objects := [], searches := 0 }

/-- The single-writer invariant: at most one search in flight, and the flag
tracks whether one is. -/
def powInv (s : PowQueueState) : Prop :=
  s.searches ≤ 1 ∧ (s.is_pow_running = true ↔ s.searches = 1)

/-- Concrete object for the C8 witness. -/
def c8Object : Object :=
  { hash := [1], nonce := [], expires := 3, signature := [],
    kind := .msg [], nonce_trials_per_byte := 1000, extra_bytes := 1000 }

/-- Concrete second object for the C8 witness. -/
def c8Object2 : Object :=
  { hash := [2], nonce := [], expires := 3, signature := [],
    kind := .getpubkey [7], nonce_trials_per_byte := 1000, extra_bytes := 1000 }

/-- Concrete queue state with one search running for the C8 witness. -/
def c8Running : PowQueueState :=
  { is_pow_running := true, waiting_objects := [c8Object2], searches := 1 }

/-! ## Data model: messages, addresses, crypto primitives

The cryptographic library functions and the serde_cbor encoding of dynamic
values are bundled in a Crypto record of explicit function parameters;
everything built from them in the repository's own code is embedded. -/

/-- MsgEncoding from network/messages.rs. -/
inductive MsgEncoding where
  | ignore
  | trivial
  | simple
  | extended
deriving DecidableEq

/-- UnencryptedMsg from core/src/network/messages.rs (keys as their serialised
byte encodings). -/
structure UnencryptedMsg where
  behavior_bitfield : Nat
  sender_ripe : String
  destination_ripe : String
  encoding : MsgEncoding
  message : Bytes
  public_signing_key : Bytes
  public_encryption_key : Bytes
deriving DecidableEq

/-- MessageStatus from core/src/repositories/sqlite/models.rs. -/
inductive MessageStatus where
  | waitingForPubkey
  | waitingForPOW
  | sent
  | received
  | unknown
deriving DecidableEq

/-- The strum Display string of a MessageStatus (the variant name). -/
def MessageStatus.str : MessageStatus → String
  | .waitingForPubkey => "WaitingForPubkey"
  | .waitingForPOW => "WaitingForPOW"
  | .sent => "Sent"
  | .received => "Received"
  | .unknown => "Unknown"

/-- models::Message from core/src/repositories/sqlite/models.rs; the status
column is stored as a string. -/
structure Message where
  hash : String
  sender : String
  recipient : String
  data : Bytes
  created_at : Int
  status : String
  signature : Bytes
deriving DecidableEq

/-- Address from src/src/network/address.rs (keys as their serialised byte
encodings; label as in the core address record). -/
structure Address where
  ripe : Bytes
  string_repr : String
  tag : Bytes
  public_decryption_key : Bytes
  public_signing_key : Option Bytes
  public_encryption_key : Option Bytes
  private_signing_key : Option Bytes
  private_encryption_key : Option Bytes
  label : String
deriving DecidableEq

/-- The library primitives consumed by the node, as explicit parameters:
SHA-256 and SHA-512 digests, secp256k1 signing (secret key, message hash to
signature bytes), ECIES encryption and decryption, serde_cbor encoding and
decoding of UnencryptedMsg, and base58 encoding and decoding. -/
structure Crypto where
  sha256 : Bytes → Bytes
  sha512 : Bytes → Bytes
  sign : Bytes → Bytes → Bytes
  eciesEncrypt : Bytes → Bytes → Bytes
  eciesDecrypt : Bytes → Bytes → Option Bytes
  cborUnencryptedMsg : UnencryptedMsg → Bytes
  cborDecodeUnencryptedMsg : Bytes → Option UnencryptedMsg
  b58encode : Bytes → String
  b58decode : String → Option Bytes

/-- Address::new: derive the double-SHA-512 checksum of the ripe; the tag is
its bytes from 32 on, the pubkey decryption key its first 32 bytes, the
display string the base58 encoding of the ripe. -/
def Address.new (C : Crypto) (ripe : Bytes) : Address :=
  let checksum := C.sha512 (C.sha512 ripe)
  { ripe := ripe, string_repr := C.b58encode ripe, tag := checksum.drop 32,
    public_decryption_key := checksum.take 32,
    public_signing_key := none, public_encryption_key := none,
    private_signing_key := none, private_encryption_key := none, label := "" }

/-- Address::with_string_repr: base58-decode the display string (an expect,
so failure is a panic, modelled as none) and derive the skeleton address. -/
def Address.with_string_repr (C : Crypto) (address : String) : Option Address :=
  (C.b58decode address).map (Address.new C)

/-- Little-endian bytes of a u64. -/
def leBytes8 (n : Nat) : Bytes :=
  [n % 256, n / 256 % 256, n / 2 ^ 16 % 256, n / 2 ^ 24 % 256,
    n / 2 ^ 32 % 256, n / 2 ^ 40 % 256, n / 2 ^ 48 % 256, n / 2 ^ 56 % 256]

/-- Rust i64::to_le_bytes (two's complement little-endian). -/
def i64LeBytes (x : Int) : Bytes := leBytes8 (u64Wrap x)

/-- Object::new from core/src/network/messages.rs: the hash is SHA-256 of
little-endian expires, then the signature bytes, then cbor(kind); the nonce
starts empty and the PoW parameters at the network minimums. -/
def Object.new (C : Crypto) (expires : Int) (signature : Bytes)
    (kind : ObjectKind) : Object :=
  { hash := C.sha256 (i64LeBytes expires ++ signature ++ serdeCborKind kind),
    nonce := [], expires := expires, signature := signature, kind := kind,
    nonce_trials_per_byte := NETWORK_MIN_NONCE_TRIALS_PER_BYTE,
    extra_bytes := NETWORK_MIN_EXTRA_BYTES }

/-- Object::with_signing: build the object with an empty signature (so the
hash covers the empty signature), then sign its hash with the identity's
private signing key; the key is unwrapped, so its absence is a panic. -/
def Object.with_signing (C : Crypto) (identity : Address) (kind : ObjectKind)
    (expires : Int) : Option Object :=
  let object := Object.new C expires [] kind
  identity.private_signing_key.map
    (fun ppsk => { object with signature := C.sign ppsk object.hash })

/-- serialize_and_encrypt_payload_pub from core/src/network/node/worker.rs:
cbor-encode the payload and ECIES-encrypt it to the given public key. -/
def serialize_and_encrypt_payload_pub (C : Crypto) (object : UnencryptedMsg)
    (public_key : Bytes) : Bytes :=
  C.eciesEncrypt public_key (C.cborUnencryptedMsg object)

/-- create_object_from_msg from core/src/network/node/worker.rs.  The
recipient's public encryption key and the identity's public signing key are
unwrapped (panic when absent, modelled as none); the object is a Msg with a
7-day TTL signed by the identity. -/
def create_object_from_msg (C : Crypto) (now : Int) (identity recipient : Address)
    (msg : Message) : Option Object := do
  let pek ← recipient.public_encryption_key
  let psk ← identity.public_signing_key
  let unenc_msg : UnencryptedMsg :=
    { behavior_bitfield := 0, sender_ripe := msg.sender,
      destination_ripe := msg.recipient, encoding := .simple,
      message := msg.data, public_signing_key := psk,
      public_encryption_key := pek }
  let encrypted := serialize_and_encrypt_payload_pub C unenc_msg pek
  Object.with_signing C identity (.msg encrypted) (now + 7 * 86400)

/-! ## Protocol handler (src/src/network/node/handler.rs) -/

/-- MessageCommand from network/messages.rs. -/
inductive MessageCommand where
  | getData
  | inv
  | reqInv
  | objects
deriving DecidableEq

/-- MessagePayload from network/messages.rs (inventory vectors are base58
hash strings). -/
inductive MessagePayload where
  | getData (inventory : List String)
  | inv (inventory : List String)
  | objects (objects : List Object)
  | none
deriving DecidableEq

/-- NetworkMessage from network/messages.rs. -/
structure NetworkMessage where
  command : MessageCommand
  payload : MessagePayload
deriving DecidableEq

/-- The inventory list carried by an Inv payload; any other payload yields the
empty list, as in handle_inv's if-let fallback. -/
def invPayloadList : MessagePayload → List String
  | .inv inventory => inventory
  | _ => []

/-- Handler::handle_get_data: collect the stored objects (rows with non-null
nonce) for the requested hashes and reply Objects.  The row-to-object
deserialisation is passed in as deser. -/
def handleGetData (deser : InvRow → Object) (rows : List InvRow)
    (payload : MessagePayload) : NetworkMessage :=
  let inv := match payload with
    | .getData inventory => inventory
    | _ => []
  let objects :=
    (inv.filterMap (fun h => rows.find? (fun r => r.hash == h && r.nonce.isSome))).map deser
  { command := .objects, payload := .objects objects }

/-- Handler::handle_get_inv_message: reply Inv with the current inventory. -/
def handleGetInvMessage (rows : List InvRow) (now : Int) : NetworkMessage :=
  { command := .inv, payload := .inv (inventoryGet rows now) }

/-- Handler::handle_inv: reduce the incoming list to the missing hashes and
reply GetData when any remain, otherwise nothing. -/
def handleInv (rows : List InvRow) (payload : MessagePayload) :
    Option NetworkMessage :=
  let inv := sqliteGetMissingObjects (rows.map (fun r => r.hash)) (invPayloadList payload)
  if inv.isEmpty then none
  else some { command := .getData, payload := .getData inv }

/-- Handler::handle_message: GetData and ReqInv always produce a reply, Inv
produces one exactly when hashes are missing, Objects is handled for side
effects only and produces none. -/
def handleMessage (deser : InvRow → Object) (rows : List InvRow) (now : Int)
    (msg : NetworkMessage) : Option NetworkMessage :=
  match msg.command with
  | .getData => some (handleGetData deser rows msg.payload)
  | .inv => handleInv rows msg.payload
  | .reqInv => some (handleGetInvMessage rows now)
  | .objects => none

/-- The worker's inbound-request path (core/src/network/node/worker.rs,
handle_event, RequestResponse Request): the handler's reply is unwrapped
before being sent, so a none reply is a panic. -/
def workerInboundRequestReply (deser : InvRow → Object) (rows : List InvRow)
    (now : Int) (request : NetworkMessage) : Option NetworkMessage :=
  handleMessage deser rows now request

/-- Handler::handle_msg_object (src/src/network/node/handler.rs): walk the
local identities; for each, ECIES-decrypt the payload with its private
encryption key (unwrapped); on successful decryption cbor-decode and persist
the message under the base58 object hash and keep iterating, on a cbor
failure stop with an error, and on a decryption failure return Ok at once
without trying the remaining identities.  The result is the list of persisted
(hash, message) pairs and whether the handler returned Ok. -/
def handleMsgObject (C : Crypto) (objectHash : Bytes) (encrypted : Bytes) :
    List Address → Option (List (String × UnencryptedMsg) × Bool)
  | [] => some ([], true)
  | i :: rest => do
      let ppek ← i.private_encryption_key
      match C.eciesDecrypt ppek encrypted with
      | some m =>
          match C.cborDecodeUnencryptedMsg m with
          | some msg => do
              let r ← handleMsgObject C objectHash encrypted rest
              pure ((C.b58encode objectHash, msg) :: r.1, r.2)
          | Option.none => some ([], false)
      | Option.none => some ([], true)

/-- Identity whose decryption key fails on the C3 payload. -/
def c3Identity1 : Address :=
  { ripe := [1], string_repr := "A1", tag := [11], public_decryption_key := [],
    public_signing_key := some [1], public_encryption_key := some [1],
    private_signing_key := some [1], private_encryption_key := some [1],
    label := "" }

/-- Identity whose decryption key succeeds on the C3 payload. -/
def c3Identity2 : Address :=
  { ripe := [2], string_repr := "A2", tag := [12], public_decryption_key := [],
    public_signing_key := some [2], public_encryption_key := some [2],
    private_signing_key := some [2], private_encryption_key := some [2],
    label := "" }

/-- The decoded message of the C3 scenario. -/
def c3Msg : UnencryptedMsg :=
  { behavior_bitfield := 0, sender_ripe := "A2", destination_ripe := "A1",
    encoding := .simple, message := [42], public_signing_key := [2],
    public_encryption_key := [2] }

/-- Crypto instance for the C3 scenario: only the second identity's key
decrypts the payload [7] to [9], which cbor-decodes to c3Msg. -/
def c3Crypto : Crypto :=
  { sha256 := fun _ => [], sha512 := fun _ => [], sign := fun _ _ => [],
    eciesEncrypt := fun _ p => p,
    eciesDecrypt := fun k c => if k = [2] ∧ c = [7] then some [9] else none,
    cborUnencryptedMsg := fun _ => [],
    cborDecodeUnencryptedMsg := fun b => if b = [9] then some c3Msg else none,
    b58encode := fun _ => "H", b58decode := fun _ => none }

/-! ## Node worker (core/src/network/node/worker.rs)

The worker state gathers the repositories it owns (address rows, message rows
and inventory rows), the tracked pubkey tags, the objects handed to the PoW
engine (enqueue_pow), and the messages published on the pubsub topic. -/

structure WorkerState where
  addresses : List Address
  messages : List Message
  invRows : List InvRow
  tracked_pubkeys : List String
  powQueue : List Object
  published : List NetworkMessage
deriving DecidableEq

/-- SqliteAddressRepository::get_by_ripe_or_tag: first row whose address or
base58 tag column equals the key. -/
def getByRipeOrTag (C : Crypto) (addresses : List Address) (key : String) :
    Option Address :=
  addresses.find? (fun a => a.string_repr == key || C.b58encode a.tag == key)

/-- SqliteMessageRepository::update_message_status: UPDATE messages SET
status WHERE hash. -/
def updateMessageStatus (messages : List Message) (hash : String)
    (status : MessageStatus) : List Message :=
  messages.map (fun m => if m.hash == hash then { m with status := status.str } else m)

/-- SqliteMessageRepository::update_hash: UPDATE messages SET hash WHERE hash. -/
def updateMessageHash (messages : List Message) (old_hash new_hash : String) :
    List Message :=
  messages.map (fun m => if m.hash == old_hash then { m with hash := new_hash } else m)

/-- SqliteMessageRepository::get_messages_by_recipient. -/
def getMessagesByRecipient (messages : List Message) (address : String) :
    List Message :=
  messages.filter (fun m => m.recipient == address)

/-- HashMap::insert on the tracked-pubkeys key set. -/
def trackedInsert (tracked : List String) (tag : String) : List String :=
  if tracked.contains tag then tracked else tracked ++ [tag]

/-- HashMap::remove on the tracked-pubkeys key set. -/
def trackedRemove (tracked : List String) (tag : String) : List String :=
  tracked.filter (fun t => !(t == tag))

/-- NodeWorker::handle_command, SendMessage arm.  The sender identity is
looked up (a double unwrap, so absence panics).  If the recipient row exists
the message gets status WaitingForPOW, the object is built (which unwraps the
recipient's public encryption key), the message hash becomes the base58 object
hash, the message is saved and the object enqueued for PoW.  Otherwise a
skeleton address is stored, the message gets status WaitingForPubkey and the
supplied random hash, the recipient's tag is tracked, and a signed Getpubkey
object with a 7-day TTL is enqueued. -/
def handleSendMessage (C : Crypto) (now : Int) (randomHash : String)
    (st : WorkerState) (msg : Message) (fromIdentity : String) :
    Option WorkerState := do
  let identity ← getByRipeOrTag C st.addresses fromIdentity
  match getByRipeOrTag C st.addresses msg.recipient with
  | some v => do
      let msg1 := { msg with status := MessageStatus.waitingForPOW.str }
      let object ← create_object_from_msg C now identity v msg1
      let msg2 := { msg1 with hash := C.b58encode object.hash }
      some { st with messages := st.messages ++ [msg2],
                     powQueue := st.powQueue ++ [object] }
  | Option.none => do
      let recipient_address ← Address.with_string_repr C msg.recipient
      let msg1 := { msg with status := MessageStatus.waitingForPubkey.str,
                             hash := randomHash }
      let ripe ← C.b58decode msg.recipient
      let obj ← Object.with_signing C identity
        (.getpubkey (Address.new C ripe).tag) (now + 7 * 86400)
      some { st with
        addresses := st.addresses ++ [recipient_address],
        messages := st.messages ++ [msg1],
        tracked_pubkeys := trackedInsert st.tracked_pubkeys
          (C.b58encode recipient_address.tag),
        powQueue := st.powQueue ++ [obj] }

/-- One iteration of the for_each in NodeWorker::handle_pubkey_notification:
look up the message's sender identity, rebuild the object, update the message
hash from the old to the new base58 object hash, set the status at the new
hash to WaitingForPOW, and enqueue the object for PoW. -/
def processPubkeyMsg (C : Crypto) (now : Int) (addr : Address)
    (acc : WorkerState) (x : Message) : Option WorkerState := do
  let identity ← getByRipeOrTag C acc.addresses x.sender
  let object ← create_object_from_msg C now identity addr x
  let new_hash := C.b58encode object.hash
  some { acc with
    messages :=
      updateMessageStatus (updateMessageHash acc.messages x.hash new_hash) new_hash .waitingForPOW,
    powQueue := acc.powQueue ++ [object] }

/-- The messages blocked on the pubkey of addr: addressed to it and in status
WaitingForPubkey. -/
def pubkeyWaitingList (st : WorkerState) (addr : Address) : List Message :=
  (getMessagesByRecipient st.messages addr.string_repr).filter
    (fun x => x.status == MessageStatus.waitingForPubkey.str)

/-- NodeWorker::handle_pubkey_notification: when the tag is tracked, load the
address, process every message blocked on it, then drop the tag from the
tracked set. -/
def handlePubkeyNotification (C : Crypto) (now : Int) (st : WorkerState)
    (tag : String) : Option WorkerState :=
  if st.tracked_pubkeys.contains tag then do
    let addr ← getByRipeOrTag C st.addresses tag
    let st1 ← (pubkeyWaitingList st addr).foldlM
      (fun acc x => processPubkeyMsg C now addr acc x) st
    some { st1 with tracked_pubkeys := trackedRemove st1.tracked_pubkeys tag }
  else some st

/-- NodeWorker::handle_command, NonceCalculated arm: for Msg objects mark the
message keyed by the base58 object hash as Sent; in every case publish the
full current inventory as an Inv on the pubsub topic. -/
def handleNonceCalculated (C : Crypto) (now : Int) (st : WorkerState)
    (obj : Object) : WorkerState :=
  let st1 := match obj.kind with
    | .msg _ =>
        { st with messages :=
            updateMessageStatus st.messages (C.b58encode obj.hash) .sent }
    | _ => st
  { st1 with published := st1.published ++
      [{ command := .inv, payload := .inv (inventoryGet st1.invRows now) }] }

/-- The image of a pubkey-blocked message after the notification handler
processes it: hash replaced by the new base58 object hash, status set to
WaitingForPOW. -/
def msgWithNewHash (x : Message) (nh : String) : Message :=
  { x with hash := nh, status := MessageStatus.waitingForPOW.str }

/-! ## Concrete scenario used by the C1 witness and the C9 failing input -/

/-- Concrete crypto primitives: injective enough on the values the scenario
touches, with base58 rendering bytes as capital letters. -/
def witnessCrypto : Crypto :=
  { sha256 := fun b => 7 :: b,
    sha512 := fun b => b ++ [1],
    sign := fun k h => k ++ h,
    eciesEncrypt := fun _ p => p,
    eciesDecrypt := fun _ _ => none,
    cborUnencryptedMsg := fun _ => [3],
    cborDecodeUnencryptedMsg := fun _ => none,
    b58encode := fun b => String.mk (b.map (fun n => Char.ofNat (65 + n % 26))),
    b58decode := fun s => if s = "C" then some [2] else none }

/-- The local identity A of the scenario (all four keys present). -/
def c1IdentityA : Address :=
  { ripe := [0], string_repr := "A", tag := [3], public_decryption_key := [],
    public_signing_key := some [1], public_encryption_key := some [1],
    private_signing_key := some [9], private_encryption_key := some [9],
    label := "" }

/-- The fully keyed contact C of the scenario (tag [7], base58 "H"). -/
def c1ContactB : Address :=
  { ripe := [2], string_repr := "C", tag := [7], public_decryption_key := [],
    public_signing_key := some [2], public_encryption_key := some [2],
    private_signing_key := none, private_encryption_key := none, label := "" }

def emptyWorkerState : WorkerState :=
  { addresses := [], messages := [], invRows := [], tracked_pubkeys := [],
    powQueue := [], published := [] }

/-- Worker state holding only identity A. -/
def c1St0 : WorkerState := { emptyWorkerState with addresses := [c1IdentityA] }

/-- A message from A to the (unknown) recipient "C". -/
def c1Msg0 : Message :=
  { hash := "x", sender := "A", recipient := "C", data := [5], created_at := 0,
    status := "Unknown", signature := [] }

/-- The state after the unknown-recipient SendMessage of the scenario. -/
def c1StA : WorkerState :=
  (handleSendMessage witnessCrypto 0 "rnd" c1St0 c1Msg0 "A").getD emptyWorkerState

/-- A message to contact C blocked on its pubkey. -/
def c1MsgW : Message :=
  { hash := "old", sender := "A", recipient := "C", data := [5], created_at := 0,
    status := "WaitingForPubkey", signature := [] }

/-- Worker state in which C is now fully keyed, its tag "H" is tracked, and
one message waits for the pubkey. -/
def c1StB : WorkerState :=
  { addresses := [c1IdentityA, c1ContactB], messages := [c1MsgW], invRows := [],
    tracked_pubkeys := ["H"], powQueue := [], published := [] }

def defaultObject : Object :=
  { hash := [], nonce := [], expires := 0, signature := [], kind := .msg [],
    nonce_trials_per_byte := 0, extra_bytes := 0 }

/-- The object rebuilt for the waiting message once C's pubkey is known. -/
def c1ObjW : Object :=
  (create_object_from_msg witnessCrypto 0 c1IdentityA c1ContactB c1MsgW).getD defaultObject

/-- The state after the pubkey notification for tag "H". -/
def c1StC : WorkerState :=
  (handlePubkeyNotification witnessCrypto 0 c1StB "H").getD emptyWorkerState

/-- Concrete object for the C2 witness: declared parameters 1000 and 0, where
the handler's target and the object-declared target agree. -/
def c2WitnessObject : Object :=
  { hash := [], nonce := [], expires := 9, signature := [],
    kind := .msg [1, 2], nonce_trials_per_byte := 1000, extra_bytes := 0 }

/-! ## Theorems -/

/-! ## Helper lemmas on the wrapping casts -/

theorem u64Wrap_eq_toNat (x : Int) (h0 : 0 ≤ x) (h1 : x < 2 ^ 64) :
    u64Wrap x = x.toNat := by
  unfold u64Wrap
  rw [Int.emod_eq_of_lt h0 h1]

theorem u32Wrap_eq_toNat (x : Int) (h0 : 0 ≤ x) (h1 : x < 2 ^ 32) :
    u32Wrap x = x.toNat := by
  unfold u32Wrap
  rw [Int.emod_eq_of_lt h0 h1]

/-- C4 counterexample: for an object whose expiry lies one second in the past,
get_pow_target does not equal the spec's formula with ttl = max(0, expires - now);
the code wraps the negative difference to a huge u64 instead of clamping it to 0. -/
theorem c4_counterexample :
    get_pow_target c4Object 1000 1000 1 ≠ specPowTarget c4Object 1000 1000 1 := by
  decide

/-- C4 (amended): for nonnegative i32 parameters and an object that has not yet
expired (with the i64 difference in range and a payload below 2^32 bytes), the
target is exactly 2^64 / (ntpb' * (payload_bytes + ttl * payload_bytes / 2^16))
over unbounded integers, with ttl = expires - now, ntpb' and eb' the arguments
with zero replaced by 1000, and payload_bytes = len(cbor(kind)) + eb' + 8.  For
an already-expired object the code wraps the negative difference (as a u64 cast)
instead of clamping it to zero, so the claim's formula fails there. -/
theorem c4_pow_target_matches_spec (object : Object) (ntpb eb now : Int)
    (h1 : 0 ≤ ntpb) (h2 : ntpb < 2 ^ 31) (h3 : 0 ≤ eb) (h4 : eb < 2 ^ 31)
    (h5 : now ≤ object.expires) (h6 : object.expires - now < 2 ^ 63)
    (h7 : (serdeCborKind object.kind).length < 2 ^ 32) :
    get_pow_target object ntpb eb now = specPowTarget object ntpb eb now := by
  have hb : (0 : Int) ≤ (if eb = 0 then (1000 : Int) else eb) ∧
      (if eb = 0 then (1000 : Int) else eb) < 2 ^ 31 := by
    split <;> omega
  have ha : (0 : Int) ≤ (if ntpb = 0 then (1000 : Int) else ntpb) ∧
      (if ntpb = 0 then (1000 : Int) else ntpb) < 2 ^ 31 := by
    split <;> omega
  simp only [get_pow_target, specPowTarget, NETWORK_MIN_NONCE_TRIALS_PER_BYTE,
    NETWORK_MIN_EXTRA_BYTES]
  rw [u64Wrap_eq_toNat (object.expires - now) (by omega) (by omega)]
  rw [u64Wrap_eq_toNat _ hb.1 (by omega)]
  rw [u32Wrap_eq_toNat _ ha.1 (by omega)]
  rw [Nat.mod_eq_of_lt (by omega)]

/-- Witness for c4_pow_target_matches_spec at a concrete unexpired object. -/
theorem c4_pow_target_witness :
    ((0 : Int) ≤ 0 ∧ (0 : Int) < 2 ^ 31 ∧ (0 : Int) ≤ 0 ∧ (0 : Int) < 2 ^ 31 ∧
      (0 : Int) ≤ c4WitnessObject.expires ∧ c4WitnessObject.expires - 0 < 2 ^ 63 ∧
      (serdeCborKind c4WitnessObject.kind).length < 2 ^ 32) ∧
    get_pow_target c4WitnessObject 0 0 0 = specPowTarget c4WitnessObject 0 0 0 :=
  ⟨by refine ⟨by decide, by decide, by decide, by decide, by decide, by decide, by decide⟩,
    c4_pow_target_matches_spec c4WitnessObject 0 0 0 (by decide) (by decide)
      (by decide) (by decide) (by decide) (by decide) (by decide)⟩

/-- C5: check_pow fails with InsufficientProofOfWork exactly when the
recomputed trial value exceeds the target, and succeeds exactly when the
recomputed trial value is at most the target; in particular a successful
check_pow implies trial ≤ target. -/
theorem c5_check_pow_iff (sha512 : Bytes → Bytes) (target nonce : Nat)
    (initial_hash : Bytes) :
    (check_pow sha512 target nonce initial_hash = .error .insufficientProofOfWork ↔
      target < trialValue sha512 nonce initial_hash) ∧
    (check_pow sha512 target nonce initial_hash = .ok () ↔
      trialValue sha512 nonce initial_hash ≤ target) := by
  simp only [check_pow, trialValue]
  split <;> rename_i h <;> constructor <;> constructor <;> intro hx <;>
    first | omega | simp_all

/-- C2 counterexample: for an object declaring nonce_trials_per_byte = 2000
the target the handler uses differs from the target computed from the
object's own declared parameters. -/
theorem c2_counterexample :
    handleObjectsPowTarget c2Object 0 ≠
      get_pow_target c2Object c2Object.nonce_trials_per_byte c2Object.extra_bytes 0 := by
  decide

/-- C2 (amended): when a received object is verified, the target is always
computed from the node's local minimum constants (both 1000), not from the
object's declared fields; and whenever each declared parameter is 0 or 1000,
that target agrees with the one computed from the object's own parameters. -/
theorem c2_target_uses_local_minimums (obj : Object) (now : Int) :
    handleObjectsPowTarget obj now =
      get_pow_target obj NETWORK_MIN_NONCE_TRIALS_PER_BYTE NETWORK_MIN_EXTRA_BYTES now ∧
    ((obj.nonce_trials_per_byte = 0 ∨ obj.nonce_trials_per_byte = 1000) →
      (obj.extra_bytes = 0 ∨ obj.extra_bytes = 1000) →
      handleObjectsPowTarget obj now =
        get_pow_target obj obj.nonce_trials_per_byte obj.extra_bytes now) := by
  refine ⟨rfl, ?_⟩
  rintro (h | h) (h' | h') <;>
    simp [handleObjectsPowTarget, get_pow_target, NETWORK_MIN_NONCE_TRIALS_PER_BYTE,
      NETWORK_MIN_EXTRA_BYTES, h, h']

/-- Splitting a list by a Boolean predicate preserves its length. -/
theorem filter_length_split {α : Type} (p : α → Bool) (l : List α) :
    (l.filter p).length + (l.filter (fun a => !(p a))).length = l.length := by
  induction l with
  | nil => simp
  | cons a t ih => cases hpa : p a <;> simp [hpa] <;> omega

/-- C6: the sqlite get_missing_objects returns exactly the set difference of
the incoming hashes against the stored hashes, while the memory implementation
keeps exactly the already-stored hashes: at stored = [[1]] and incoming
[[1],[2]] it returns [[1]] instead of the difference [[2]]. -/
theorem c6_missing_objects :
    (∀ (stored hashes : List String) (h : String),
        h ∈ sqliteGetMissingObjects stored hashes ↔ h ∈ hashes ∧ h ∉ stored) ∧
    memoryGetMissingObjects [[1]] [[1], [2]] = [[1]] := by
  constructor
  · intro stored hashes h
    simp [sqliteGetMissingObjects, List.mem_filter]
  · decide

/-- C7 counterexample: a memory inventory entry whose expiry instant equals
now survives cleanup, so after cleanup a row with expiry ≤ now remains. -/
theorem c7_counterexample :
    (memoryCleanup [([1], 5)] 5).1 = [([1], 5)] ∧ (5 : Int) ≤ 5 := by
  decide

/-- C7 (amended): after the sqlite cleanup no row has expires ≤ now and the
returned count equals the number of rows removed; the memory cleanup removes
only entries whose expiry lies strictly before now (an entry expiring exactly
at now survives), its count also equals the number removed; and in both
implementations a single row expiring one second in the past is deleted with
the call returning 1. -/
theorem c7_cleanup (rows : List InvRow) (objects : List (Bytes × Int)) (now : Int) :
    (∀ r ∈ (sqliteCleanup rows now).1, now < r.expires) ∧
    ((sqliteCleanup rows now).2 = rows.length - (sqliteCleanup rows now).1.length) ∧
    (∀ v ∈ (memoryCleanup objects now).1, now ≤ v.2) ∧
    ((memoryCleanup objects now).2 = objects.length - (memoryCleanup objects now).1.length) ∧
    (∀ r : InvRow, r.expires = now - 1 → sqliteCleanup [r] now = ([], 1)) ∧
    (∀ v : Bytes × Int, v.2 = now - 1 → memoryCleanup [v] now = ([], 1)) := by
  refine ⟨?_, ?_, ?_, ?_, ?_, ?_⟩
  · intro r hr
    have := List.of_mem_filter hr
    simp at this
    omega
  · have := filter_length_split (fun r : InvRow => decide (r.expires ≤ now)) rows
    simp only [sqliteCleanup]
    omega
  · intro v hv
    have := List.of_mem_filter hv
    simp at this
    omega
  · rfl
  · intro r hr
    simp [sqliteCleanup, hr]
  · intro v hv
    simp [memoryCleanup, hv]

/-- Witness for c7_cleanup at concrete rows and time now = 5. -/
theorem c7_cleanup_witness :
    (c7Row1 ∈ (sqliteCleanup [c7Row1, c7Row2] 5).1 ∧ (5 : Int) < c7Row1.expires) ∧
    (([2], 7) ∈ (memoryCleanup [([2], 7)] 5).1 ∧ (5 : Int) ≤ 7) ∧
    sqliteCleanup [c7Row2] 5 = ([], 1) ∧
    memoryCleanup [([9], 4)] 5 = ([], 1) :=
  ⟨⟨by decide, (c7_cleanup [c7Row1, c7Row2] [] 5).1 c7Row1 (by decide)⟩,
    ⟨by decide, (c7_cleanup [] [([2], 7)] 5).2.2.1 ([2], 7) (by decide)⟩,
    (c7_cleanup [] [] 5).2.2.2.2.1 c7Row2 (by decide),
    (c7_cleanup [] [] 5).2.2.2.2.2 ([9], 4) (by decide)⟩

theorem powStep_preserves_inv (s : PowQueueState) (c : PowCmd)
    (hinv : powInv s) (hc : powCmdValid s c = true) : powInv (powStep s c).1 := by
  obtain ⟨h1, h2⟩ := hinv
  cases c with
  | enqueuePoW o =>
      by_cases hr : s.is_pow_running = true <;>
        simp [powStep, enqueuePowStep, powInv, hr] at h2 ⊢ <;> omega
  | nonceCalculated o =>
      simp [powCmdValid] at hc
      have hs : s.searches = 1 := by omega
      have hr : s.is_pow_running = true := h2.mpr hs
      cases hw : s.waiting_objects with
      | nil => simp [powStep, hw, powInv, hs]
      | cons o rest => simp [powStep, hw, powInv, hs, hr]

theorem powRun_preserves_inv (cs : List PowCmd) (s : PowQueueState)
    (hinv : powInv s) (hv : powTraceValid s cs = true) : powInv (powRun s cs) := by
  induction cs generalizing s with
  | nil => exact hinv
  | cons c rest ih =>
      simp only [powTraceValid, Bool.and_eq_true] at hv
      exact ih (powStep s c).1 (powStep_preserves_inv s c hinv hv.1) hv.2

/-- C8: along every trace that is valid from the initial state (NonceCalculated
only arrives from an in-flight search), at most one nonce search is ever in
flight; a job submitted while the engine is idle starts immediately, a job
submitted while a search runs is appended to the waiting queue with no new
search, and on NonceCalculated the engine persists the nonce, notifies the
node worker, and then starts the next waiting job if any, otherwise marks
itself idle. -/
theorem c8_pow_queue (cs : List PowCmd) (s : PowQueueState) (o : Object) :
    (powTraceValid powInit cs = true → (powRun powInit cs).searches ≤ 1) ∧
    (s.is_pow_running = false →
      powStep s (.enqueuePoW o) =
        ({ s with is_pow_running := true, searches := s.searches + 1 },
          [.storeObject o, .startSearch o])) ∧
    (s.is_pow_running = true →
      powStep s (.enqueuePoW o) =
        ({ s with waiting_objects := s.waiting_objects ++ [o] }, [.storeObject o])) ∧
    (s.waiting_objects = [] →
      powStep s (.nonceCalculated o) =
        ({ s with is_pow_running := false, searches := s.searches - 1 },
          [.updateNonce o.hash o.nonce, .notifyNodeWorker o])) ∧
    (∀ w rest, s.waiting_objects = w :: rest →
      powStep s (.nonceCalculated o) =
        ({ s with waiting_objects := rest, searches := s.searches - 1 + 1 },
          [.updateNonce o.hash o.nonce, .notifyNodeWorker o, .startSearch w])) := by
  refine ⟨?_, ?_, ?_, ?_, ?_⟩
  · intro hv
    exact (powRun_preserves_inv cs powInit (by simp [powInit, powInv]) hv).1
  · intro hr
    simp [powStep, enqueuePowStep, hr]
  · intro hr
    simp [powStep, enqueuePowStep, hr]
  · intro hw
    simp [powStep, hw]
  · intro w rest hw
    simp [powStep, hw]

/-- Witness for c8_pow_queue: a concrete valid trace with two submissions and
two completions, plus concrete instantiations of each step equation. -/
theorem c8_pow_queue_witness :
    (powRun powInit
        [.enqueuePoW c8Object, .enqueuePoW c8Object2,
          .nonceCalculated c8Object, .nonceCalculated c8Object2]).searches ≤ 1 ∧
    powStep powInit (.enqueuePoW c8Object) =
      ({ powInit with is_pow_running := true, searches := 1 },
        [.storeObject c8Object, .startSearch c8Object]) ∧
    powStep c8Running (.enqueuePoW c8Object) =
      ({ c8Running with waiting_objects := [c8Object2, c8Object] },
        [.storeObject c8Object]) ∧
    powStep { c8Running with waiting_objects := [] } (.nonceCalculated c8Object) =
      ({ is_pow_running := false, waiting_objects := [], searches := 0 },
        [.updateNonce c8Object.hash c8Object.nonce, .notifyNodeWorker c8Object]) ∧
    powStep c8Running (.nonceCalculated c8Object) =
      ({ c8Running with waiting_objects := [], searches := 1 },
        [.updateNonce c8Object.hash c8Object.nonce, .notifyNodeWorker c8Object,
          .startSearch c8Object2]) := by
  refine ⟨(c8_pow_queue _ powInit c8Object).1 (by decide), ?_, ?_, ?_, ?_⟩
  · exact (c8_pow_queue [] powInit c8Object).2.1 (by decide)
  · exact (c8_pow_queue [] c8Running c8Object).2.2.1 (by decide)
  · exact (c8_pow_queue [] { c8Running with waiting_objects := [] } c8Object).2.2.2.1 (by decide)
  · exact (c8_pow_queue [] c8Running c8Object).2.2.2.2 c8Object2 [] (by decide)

/-- C10: handle_message returns a reply exactly when the command is GetData,
ReqInv, or an Inv whose hash list has at least one hash with no stored
inventory row; it returns none for Objects and for an Inv with no missing
hashes; hence the worker's inbound-request unwrap is panic-free exactly under
that precondition. -/
theorem c10_handle_message_reply (deser : InvRow → Object) (rows : List InvRow)
    (now : Int) (msg : NetworkMessage) :
    ((handleMessage deser rows now msg).isSome = true ↔
      (msg.command = .getData ∨ msg.command = .reqInv ∨
        (msg.command = .inv ∧
          ∃ h ∈ invPayloadList msg.payload, h ∉ rows.map (fun r => r.hash)))) ∧
    (workerInboundRequestReply deser rows now msg = none ↔
      ¬(msg.command = .getData ∨ msg.command = .reqInv ∨
        (msg.command = .inv ∧
          ∃ h ∈ invPayloadList msg.payload, h ∉ rows.map (fun r => r.hash)))) := by
  have hmain : (handleMessage deser rows now msg).isSome = true ↔
      (msg.command = .getData ∨ msg.command = .reqInv ∨
        (msg.command = .inv ∧
          ∃ h ∈ invPayloadList msg.payload, h ∉ rows.map (fun r => r.hash))) := by
    obtain ⟨cmd, payload⟩ := msg
    cases cmd <;>
      simp [handleMessage, handleInv, sqliteGetMissingObjects, List.isEmpty_iff,
        List.filter_eq_nil_iff]
  refine ⟨hmain, ?_⟩
  rw [← hmain]
  unfold workerInboundRequestReply
  cases handleMessage deser rows now msg <;> simp

/-- C3: with identities [i1, i2] where only i2 can decrypt the payload, the
handler returns Ok after i1's decryption failure without persisting anything
(the object is dropped), although running it on i2 alone persists the decoded
message; so a failure against one identity ends the scan instead of moving on
to the next identity. -/
theorem c3_first_failure_drops_message :
    handleMsgObject c3Crypto [5] [7] [c3Identity1, c3Identity2] = some ([], true) ∧
    c3Crypto.eciesDecrypt [2] [7] = some [9] ∧
    c3Crypto.cborDecodeUnencryptedMsg [9] = some c3Msg ∧
    handleMsgObject c3Crypto [5] [7] [c3Identity2] = some ([("H", c3Msg)], true) := by
  refine ⟨rfl, ?_, rfl, rfl⟩
  simp [c3Crypto]

/-! ## Lemmas on the pubkey-notification fold -/

theorem mem_updateMessageHash_of_ne (messages : List Message) (o n : String)
    (m : Message) (hm : m ∈ messages) (hne : m.hash ≠ o) :
    m ∈ updateMessageHash messages o n := by
  have h2 := List.mem_map_of_mem
    (fun mm : Message => if mm.hash == o then { mm with hash := n } else mm) hm
  simpa [updateMessageHash, hne] using h2

theorem mem_updateMessageStatus_of_ne (messages : List Message) (h : String)
    (s : MessageStatus) (m : Message) (hm : m ∈ messages) (hne : m.hash ≠ h) :
    m ∈ updateMessageStatus messages h s := by
  have h2 := List.mem_map_of_mem
    (fun mm : Message => if mm.hash == h then { mm with status := s.str } else mm) hm
  simpa [updateMessageStatus, hne] using h2

theorem updated_mem_updateMessageHash (messages : List Message) (n : String)
    (m : Message) (hm : m ∈ messages) :
    { m with hash := n } ∈ updateMessageHash messages m.hash n := by
  have h2 := List.mem_map_of_mem
    (fun mm : Message => if mm.hash == m.hash then { mm with hash := n } else mm) hm
  simpa [updateMessageHash] using h2

theorem updated_mem_updateMessageStatus (messages : List Message)
    (s : MessageStatus) (m : Message) (hm : m ∈ messages) :
    { m with status := s.str } ∈ updateMessageStatus messages m.hash s := by
  have h2 := List.mem_map_of_mem
    (fun mm : Message => if mm.hash == m.hash then { mm with status := s.str } else mm) hm
  simpa [updateMessageStatus] using h2

theorem hash_of_mem_updateMessageHash (messages : List Message) (o n : String)
    (m : Message) (h : m ∈ updateMessageHash messages o n) :
    m.hash = n ∨ ∃ m0 ∈ messages, m.hash = m0.hash := by
  rcases List.mem_map.mp h with ⟨m0, hm0, he⟩
  by_cases hc : m0.hash = o
  · left
    rw [← he]
    simp [hc]
  · right
    exact ⟨m0, hm0, by rw [← he]; simp [hc]⟩

theorem hash_of_mem_updateMessageStatus (messages : List Message) (hs : String)
    (s : MessageStatus) (m : Message) (h : m ∈ updateMessageStatus messages hs s) :
    ∃ m0 ∈ messages, m.hash = m0.hash := by
  rcases List.mem_map.mp h with ⟨m0, hm0, he⟩
  by_cases hc : m0.hash = hs
  · exact ⟨m0, hm0, by rw [← he]; simp [hc]⟩
  · exact ⟨m0, hm0, by rw [← he]; simp [hc]⟩

theorem processPubkeyMsg_eq (C : Crypto) (now : Int) (addr : Address)
    (acc : WorkerState) (x : Message) (ident : Address) (object : Object)
    (hid : getByRipeOrTag C acc.addresses x.sender = some ident)
    (hobj : create_object_from_msg C now ident addr x = some object) :
    processPubkeyMsg C now addr acc x = some
      { acc with
        messages :=
          updateMessageStatus
            (updateMessageHash acc.messages x.hash (C.b58encode object.hash))
            (C.b58encode object.hash) .waitingForPOW,
        powQueue := acc.powQueue ++ [object] } := by
  simp [processPubkeyMsg, hid, hobj]

theorem processPubkeyMsg_some (C : Crypto) (now : Int) (addr : Address)
    (acc acc' : WorkerState) (x : Message)
    (h : processPubkeyMsg C now addr acc x = some acc') :
    ∃ object, acc'.addresses = acc.addresses ∧
      acc'.powQueue = acc.powQueue ++ [object] := by
  cases hid : getByRipeOrTag C acc.addresses x.sender with
  | none => simp [processPubkeyMsg, hid] at h
  | some ident =>
      cases hobj : create_object_from_msg C now ident addr x with
      | none => simp [processPubkeyMsg, hid, hobj] at h
      | some object =>
          refine ⟨object, ?_, ?_⟩ <;>
            · rw [processPubkeyMsg_eq C now addr acc x ident object hid hobj] at h
              cases h
              rfl

theorem pubkeyFold_queue_mono (C : Crypto) (now : Int) (addr : Address) :
    ∀ (W : List Message) (acc final : WorkerState),
    W.foldlM (fun a x => processPubkeyMsg C now addr a x) acc = some final →
    ∀ o ∈ acc.powQueue, o ∈ final.powQueue := by
  intro W
  induction W with
  | nil =>
      intro acc final h o ho
      simp only [List.foldlM_nil] at h
      cases h
      exact ho
  | cons x W ih =>
      intro acc final h o ho
      rw [List.foldlM_cons] at h
      cases hs : processPubkeyMsg C now addr acc x with
      | none => rw [hs] at h; simp at h
      | some acc1 =>
          rw [hs] at h
          simp only [Option.bind_eq_bind, Option.some_bind] at h
          obtain ⟨object, _, hq⟩ := processPubkeyMsg_some C now addr acc acc1 x hs
          exact ih acc1 final h o (by rw [hq]; exact List.mem_append_left _ ho)

theorem pubkeyFold_preserve (C : Crypto) (now : Int) (addr : Address)
    (A : List Address) (identOf : Message → Address) (objOf : Message → Object) :
    ∀ (W : List Message) (acc final : WorkerState) (m : Message),
    acc.addresses = A →
    (∀ x ∈ W, getByRipeOrTag C A x.sender = some (identOf x)) →
    (∀ x ∈ W, create_object_from_msg C now (identOf x) addr x = some (objOf x)) →
    W.foldlM (fun a x => processPubkeyMsg C now addr a x) acc = some final →
    m ∈ acc.messages →
    (∀ x ∈ W, x.hash ≠ m.hash) →
    (∀ x ∈ W, C.b58encode (objOf x).hash ≠ m.hash) →
    m ∈ final.messages := by
  intro W
  induction W with
  | nil =>
      intro acc final m _ _ _ h hm _ _
      simp only [List.foldlM_nil] at h
      cases h
      exact hm
  | cons x W ih =>
      intro acc final m hA hid hobj h hm hold hnew
      rw [List.foldlM_cons] at h
      have hidx := hid x (by simp)
      have hobjx := hobj x (by simp)
      rw [processPubkeyMsg_eq C now addr acc x (identOf x) (objOf x)
        (by rw [hA]; exact hidx) hobjx] at h
      simp only [Option.bind_eq_bind, Option.some_bind] at h
      refine ih _ final m (by simpa using hA)
        (fun y hy => hid y (by simp [hy]))
        (fun y hy => hobj y (by simp [hy])) h ?_
        (fun y hy => hold y (by simp [hy]))
        (fun y hy => hnew y (by simp [hy]))
      have h1 : m ∈ updateMessageHash acc.messages x.hash (C.b58encode (objOf x).hash) :=
        mem_updateMessageHash_of_ne _ _ _ m hm (fun hc => hold x (by simp) hc.symm)
      exact mem_updateMessageStatus_of_ne _ _ _ m h1
        (fun hc => hnew x (by simp) hc.symm)

theorem pubkeyFold_spec (C : Crypto) (now : Int) (addr : Address)
    (A : List Address) (identOf : Message → Address) (objOf : Message → Object) :
    ∀ (W : List Message) (acc final : WorkerState),
    acc.addresses = A →
    W.Nodup →
    (∀ x ∈ W, getByRipeOrTag C A x.sender = some (identOf x)) →
    (∀ x ∈ W, create_object_from_msg C now (identOf x) addr x = some (objOf x)) →
    (∀ x ∈ W, x ∈ acc.messages) →
    (∀ x ∈ W, ∀ m ∈ acc.messages, C.b58encode (objOf x).hash ≠ m.hash) →
    (∀ x ∈ W, ∀ y ∈ W, x ≠ y → x.hash ≠ y.hash) →
    (∀ x ∈ W, ∀ y ∈ W, x ≠ y →
      C.b58encode (objOf x).hash ≠ C.b58encode (objOf y).hash) →
    W.foldlM (fun a x => processPubkeyMsg C now addr a x) acc = some final →
    ∀ x ∈ W,
      (msgWithNewHash x (C.b58encode (objOf x).hash) ∈ final.messages ∧
        objOf x ∈ final.powQueue) := by
  intro W
  induction W with
  | nil => intro acc final _ _ _ _ _ _ _ _ _ x hx; cases hx
  | cons y W ih =>
      intro acc final hA hnd hid hobj hmem hfresh hdisth hdistn h x hx
      rw [List.foldlM_cons] at h
      have hidy := hid y (by simp)
      have hobjy := hobj y (by simp)
      rw [processPubkeyMsg_eq C now addr acc y (identOf y) (objOf y)
        (by rw [hA]; exact hidy) hobjy] at h
      simp only [Option.bind_eq_bind, Option.some_bind] at h
      have hyW : y ∉ W := (List.nodup_cons.mp hnd).1
      have hndW : W.Nodup := (List.nodup_cons.mp hnd).2
      rcases List.mem_cons.mp hx with hxy | hxW
      · subst hxy
        -- the head is updated by its own step and preserved by the rest
        have hupd : msgWithNewHash x (C.b58encode (objOf x).hash) ∈
            updateMessageStatus
              (updateMessageHash acc.messages x.hash (C.b58encode (objOf x).hash))
              (C.b58encode (objOf x).hash) .waitingForPOW := by
          have h1 := updated_mem_updateMessageHash acc.messages
            (C.b58encode (objOf x).hash) x (hmem x (by simp))
          have h2 := updated_mem_updateMessageStatus _
            MessageStatus.waitingForPOW { x with hash := C.b58encode (objOf x).hash } h1
          exact h2
        constructor
        · refine pubkeyFold_preserve C now addr A identOf objOf W _ final _
            (by simpa using hA)
            (fun z hz => hid z (by simp [hz]))
            (fun z hz => hobj z (by simp [hz])) h hupd ?_ ?_
          · intro z hz hc
            exact hfresh x (by simp) z (hmem z (by simp [hz])) hc.symm
          · intro z hz hc
            exact hdistn z (by simp [hz]) x (by simp) (fun he => hyW (he ▸ hz)) hc
        · have hq : objOf x ∈ acc.powQueue ++ [objOf x] := by simp
          exact pubkeyFold_queue_mono C now addr W _ final h _ hq
      · -- a later element is untouched by the head's step
        have hxmem : x ∈ updateMessageStatus
            (updateMessageHash acc.messages y.hash (C.b58encode (objOf y).hash))
            (C.b58encode (objOf y).hash) .waitingForPOW := by
          have hxy : x ≠ y := fun he => hyW (he ▸ hxW)
          have h1 := mem_updateMessageHash_of_ne acc.messages y.hash
            (C.b58encode (objOf y).hash) x (hmem x (by simp [hxW]))
            (hdisth x (by simp [hxW]) y (by simp) hxy)
          exact mem_updateMessageStatus_of_ne _ _ _ x h1
            (fun hc => hfresh y (by simp) x (hmem x (by simp [hxW])) hc.symm)
        refine ih _ final (by simpa using hA) hndW
          (fun z hz => hid z (by simp [hz]))
          (fun z hz => hobj z (by simp [hz]))
          ?_ ?_
          (fun z hz w hw hzw => hdisth z (by simp [hz]) w (by simp [hw]) hzw)
          (fun z hz w hw hzw => hdistn z (by simp [hz]) w (by simp [hw]) hzw)
          h x hxW
        · intro z hz
          have hzy : z ≠ y := fun he => hyW (he ▸ hz)
          have h1 := mem_updateMessageHash_of_ne acc.messages y.hash
            (C.b58encode (objOf y).hash) z (hmem z (by simp [hz]))
            (hdisth z (by simp [hz]) y (by simp) hzy)
          exact mem_updateMessageStatus_of_ne _ _ _ z h1
            (fun hc => hfresh y (by simp) z (hmem z (by simp [hz])) hc.symm)
        · intro z hz m hm
          rcases hash_of_mem_updateMessageStatus _ _ _ m hm with ⟨m1, hm1, he1⟩
          rcases hash_of_mem_updateMessageHash _ _ _ m1 hm1 with he2 | ⟨m0, hm0, he2⟩
          · rw [he1, he2]
            exact hdistn z (by simp [hz]) y (by simp) (fun he => hyW (he ▸ hz))
          · rw [he1, he2]
            exact hfresh z (by simp [hz]) m0 hm0

theorem mem_of_pubkeyWaitingList (st : WorkerState) (addr : Address)
    (x : Message) (hx : x ∈ pubkeyWaitingList st addr) : x ∈ st.messages := by
  simp only [pubkeyWaitingList, getMessagesByRecipient, List.mem_filter] at hx
  exact hx.1.1

theorem pubkeyWaitingList_nodup (st : WorkerState) (addr : Address)
    (h : st.messages.Nodup) : (pubkeyWaitingList st addr).Nodup :=
  (h.filter _).filter _

theorem object_with_signing_kind (C : Crypto) (identity : Address)
    (kind : ObjectKind) (expires : Int) (o : Object)
    (h : Object.with_signing C identity kind expires = some o) : o.kind = kind := by
  cases hk : identity.private_signing_key with
  | none => simp [Object.with_signing, hk] at h
  | some ppsk =>
      simp [Object.with_signing, hk] at h
      rw [← h]
      rfl

/-- C1: a SendMessage whose recipient is unknown stores the message with
status WaitingForPubkey (under the random temporary hash) and queues a
Getpubkey object for proof-of-work; a pubkey notification for a tracked tag
replaces, for every message to that recipient in status WaitingForPubkey,
the message hash by the base58 hash of the newly built object and sets the
status to WaitingForPOW, enqueueing each object; and a NonceCalculated for a
Msg object marks the message keyed by the base58 object hash as Sent and
publishes the full current inventory as an Inv on the topic. -/
theorem c1_send_pipeline
    (C : Crypto) (now : Int) (randomHash : String)
    (st sta stb stc : WorkerState) (msg : Message) (fromIdentity tag : String)
    (addr : Address) (identOf : Message → Address) (objOf : Message → Object)
    (obj : Object) (e : Bytes) :
    (getByRipeOrTag C st.addresses msg.recipient = none →
      handleSendMessage C now randomHash st msg fromIdentity = some sta →
      (∃ m, sta.messages = st.messages ++ [m] ∧
        m.status = MessageStatus.waitingForPubkey.str ∧ m.hash = randomHash) ∧
      (∃ o, sta.powQueue = st.powQueue ++ [o] ∧ ∃ t, o.kind = .getpubkey t)) ∧
    (stb.tracked_pubkeys.contains tag = true →
      getByRipeOrTag C stb.addresses tag = some addr →
      stb.messages.Nodup →
      (∀ x ∈ pubkeyWaitingList stb addr,
        getByRipeOrTag C stb.addresses x.sender = some (identOf x)) →
      (∀ x ∈ pubkeyWaitingList stb addr,
        create_object_from_msg C now (identOf x) addr x = some (objOf x)) →
      (∀ x ∈ pubkeyWaitingList stb addr, ∀ m ∈ stb.messages,
        C.b58encode (objOf x).hash ≠ m.hash) →
      (∀ x ∈ pubkeyWaitingList stb addr, ∀ y ∈ pubkeyWaitingList stb addr,
        x ≠ y → x.hash ≠ y.hash) →
      (∀ x ∈ pubkeyWaitingList stb addr, ∀ y ∈ pubkeyWaitingList stb addr,
        x ≠ y → C.b58encode (objOf x).hash ≠ C.b58encode (objOf y).hash) →
      handlePubkeyNotification C now stb tag = some stc →
      ∀ x ∈ pubkeyWaitingList stb addr,
        (msgWithNewHash x (C.b58encode (objOf x).hash) ∈ stc.messages ∧
          objOf x ∈ stc.powQueue)) ∧
    (obj.kind = .msg e →
      (handleNonceCalculated C now st obj).messages =
        updateMessageStatus st.messages (C.b58encode obj.hash) .sent ∧
      (handleNonceCalculated C now st obj).published =
        st.published ++
          [{ command := .inv, payload := .inv (inventoryGet st.invRows now) }]) := by
  refine ⟨?_, ?_, ?_⟩
  · -- (i) unknown recipient
    intro hrec hsend
    cases hid : getByRipeOrTag C st.addresses fromIdentity with
    | none => simp [handleSendMessage, hid] at hsend
    | some identity =>
        cases hrp : C.b58decode msg.recipient with
        | none =>
            simp [handleSendMessage, hid, hrec, Address.with_string_repr, hrp] at hsend
        | some ripe =>
            cases hpsk : identity.private_signing_key with
            | none =>
                simp [handleSendMessage, hid, hrec, Address.with_string_repr, hrp,
                  Object.with_signing, hpsk] at hsend
            | some ppsk =>
                simp [handleSendMessage, hid, hrec, Address.with_string_repr,
                  hrp, Object.with_signing, hpsk] at hsend
                subst hsend
                refine ⟨⟨_, rfl, rfl, rfl⟩, ⟨_, rfl, _, rfl⟩⟩
  · -- (ii) pubkey notification for a tracked tag
    intro htr haddr hnd hid hobj hfresh hdh hdn hrun
    simp only [handlePubkeyNotification, htr, if_true, haddr, Option.bind_eq_bind,
      Option.some_bind] at hrun
    cases hfold : (pubkeyWaitingList stb addr).foldlM
        (fun acc x => processPubkeyMsg C now addr acc x) stb with
    | none => rw [hfold] at hrun; simp at hrun
    | some st1 =>
        rw [hfold] at hrun
        simp only [Option.some_bind, Option.some.injEq] at hrun
        subst hrun
        intro x hx
        exact pubkeyFold_spec C now addr stb.addresses identOf objOf
          (pubkeyWaitingList stb addr) stb st1 rfl
          (pubkeyWaitingList_nodup stb addr hnd) hid hobj
          (fun z hz => mem_of_pubkeyWaitingList stb addr z hz)
          hfresh hdh hdn hfold x hx
  · -- (iii) NonceCalculated for a Msg object
    intro hkind
    simp [handleNonceCalculated, hkind]

/-- Witness for c1_send_pipeline on the concrete scenario: the
unknown-recipient send, the pubkey notification, and the Msg NonceCalculated,
each with its hypotheses discharged by evaluation. -/
theorem c1_send_pipeline_witness :
    (getByRipeOrTag witnessCrypto c1St0.addresses c1Msg0.recipient = none ∧
      (∃ m, c1StA.messages = c1St0.messages ++ [m] ∧
        m.status = MessageStatus.waitingForPubkey.str ∧ m.hash = "rnd") ∧
      (∃ o, c1StA.powQueue = c1St0.powQueue ++ [o] ∧ ∃ t, o.kind = .getpubkey t)) ∧
    (c1StB.tracked_pubkeys.contains "H" = true ∧
      (msgWithNewHash c1MsgW (witnessCrypto.b58encode c1ObjW.hash) ∈ c1StC.messages ∧
        c1ObjW ∈ c1StC.powQueue)) ∧
    ((handleNonceCalculated witnessCrypto 0 c1St0 c1ObjW).messages =
        updateMessageStatus c1St0.messages (witnessCrypto.b58encode c1ObjW.hash) .sent ∧
      (handleNonceCalculated witnessCrypto 0 c1St0 c1ObjW).published =
        c1St0.published ++
          [{ command := .inv, payload := .inv (inventoryGet c1St0.invRows 0) }]) := by
  refine ⟨⟨by decide, ?_⟩, ⟨by decide, ?_⟩, ?_⟩
  · exact (c1_send_pipeline witnessCrypto 0 "rnd" c1St0 c1StA c1StB c1StC c1Msg0
      "A" "H" c1ContactB (fun _ => c1IdentityA) (fun _ => c1ObjW) c1ObjW [3]).1
      (by decide) rfl
  · exact (c1_send_pipeline witnessCrypto 0 "rnd" c1St0 c1StA c1StB c1StC c1Msg0
      "A" "H" c1ContactB (fun _ => c1IdentityA) (fun _ => c1ObjW) c1ObjW [3]).2.1
      (by decide) (by decide) (by decide) (by decide) (by decide) (by decide)
      (by decide) (by decide) rfl c1MsgW (by decide)
  · exact (c1_send_pipeline witnessCrypto 0 "rnd" c1St0 c1StA c1StB c1StC c1Msg0
      "A" "H" c1ContactB (fun _ => c1IdentityA) (fun _ => c1ObjW) c1ObjW [3]).2.2
      (by decide)

/-- C9: the failing input is a SendMessage whose recipient row exists without
public keys, exactly the skeleton row that a first SendMessage to an unknown
recipient stores.  The first send succeeds (path b); the recipient lookup now
succeeds but carries no public encryption key, so the claim expects path (b)
again, yet the code takes path (a) and panics unwrapping the absent key
(modelled as none). -/
theorem c9_skeleton_recipient_panics :
    (handleSendMessage witnessCrypto 0 "r1" c1St0 c1Msg0 "A").isSome = true ∧
    ((handleSendMessage witnessCrypto 0 "r1" c1St0 c1Msg0 "A").bind
        (fun st1 => getByRipeOrTag witnessCrypto st1.addresses c1Msg0.recipient)).map
      (fun a => a.public_encryption_key) = some Option.none ∧
    (handleSendMessage witnessCrypto 0 "r1" c1St0 c1Msg0 "A").bind
      (fun st1 => handleSendMessage witnessCrypto 0 "r2" st1 c1Msg0 "A") = none := by
  refine ⟨by decide, by decide, by decide⟩

/-- Witness for c2_target_uses_local_minimums at a concrete object. -/
theorem c2_target_witness :
    (c2WitnessObject.nonce_trials_per_byte = 0 ∨
      c2WitnessObject.nonce_trials_per_byte = 1000) ∧
    (c2WitnessObject.extra_bytes = 0 ∨ c2WitnessObject.extra_bytes = 1000) ∧
    handleObjectsPowTarget c2WitnessObject 5 =
      get_pow_target c2WitnessObject c2WitnessObject.nonce_trials_per_byte
        c2WitnessObject.extra_bytes 5 :=
  ⟨Or.inr rfl, Or.inl rfl,
    (c2_target_uses_local_minimums c2WitnessObject 5).2 (Or.inr rfl) (Or.inl rfl)⟩

end Bitmessage
